import Mathlib

/-!
Shallow embedding of the forecast pipeline of the weather-chatbot repository
(src/services/weather_service.py, class WeatherService), together with the reset
path of src/services/ui_service.py.

Modelling conventions:
* Python floats become exact rationals; numeric string formatting in the
  summary dict is a presentation concern and the summary here carries the
  exact values the source computes before formatting.
* Python dicts become insertion-ordered association lists with the dict
  update semantics (overwrite in place, append new keys at the end).
* Calendar dates (the %Y-%m-%d grouping keys and datetime.date values)
  become integers counting days, so that Python date subtraction
  (forecast_date - today).days is integer subtraction.
* Timestamps (datetime.now()) become natural numbers counting seconds, so
  the cache validity test datetime.now() - timestamp < cache_validity_period
  becomes now - ts < P on naturals.
* The network (requests.get for geocoding and for the forecast endpoint)
  becomes an oracle assigning each city name one of the outcomes the source
  distinguishes; each fetch attempt for a city is recorded in a log so that
  the absence of refetching is observable.
-/

/-- Lookup in a Python-dict-like association list (keys are unique). -/
def dget {K V : Type} [DecidableEq K] : List (K × V) → K → Option V
  | [], _ => none
  | (k, v) :: rest, key => if k = key then some v else dget rest key

/-- Python dict assignment: overwrite the entry in place if the key exists,
otherwise append the new binding at the end (insertion order). -/
def dset {K V : Type} [DecidableEq K] : List (K × V) → K → V → List (K × V)
  | [], key, v => [(key, v)]
  | (k, w) :: rest, key, v =>
      if k = key then (key, v) :: rest else (k, w) :: dset rest key v

/-- Time-of-day buckets used by parse_weather_data. -/
inductive Period where
  | morning
  | afternoon
  | night
deriving DecidableEq

/-- The time_blocks classification in parse_weather_data: morning [6,12),
afternoon [12,18), everything else night. -/
def periodOf (hour : Nat) : Period :=
  if 6 ≤ hour ∧ hour < 12 then .morning
  else if 12 ≤ hour ∧ hour < 18 then .afternoon
  else .night

/-- One 3-hour entry of the raw forecast payload, with the fields
parse_weather_data reads.  wind_gust, rain3h and snow3h are optional because
the source reads them with .get(..., 0) defaults. -/
structure Sample where
  date : Int
  hour : Nat
  temp : ℚ
  feels_like : ℚ
  pressure : ℚ
  humidity : ℚ
  cloudiness : ℚ
  wind_speed : ℚ
  wind_gust : Option ℚ
  wind_deg : ℚ
  visibility : ℚ
  description : String
  pod_day : Bool
  pop : ℚ
  rain3h : Option ℚ
  snow3h : Option ℚ
deriving DecidableEq

/-- A raw forecast payload: the sample list plus the city sunrise/sunset
epoch timestamps read by get_weather_forecasts. -/
structure RawSeries where
  list : List Sample
  sunrise : Nat
  sunset : Nat
deriving DecidableEq

/-- One day's accumulated raw values, as built by parse_weather_data. -/
structure DayBucket where
  temps : List ℚ
  feels_like : List ℚ
  pressure : List ℚ
  humidity : List ℚ
  cloudiness : List ℚ
  wind_speed : List ℚ
  wind_gust : List ℚ
  wind_deg : List ℚ
  visibility : List ℚ
  weather_descriptions : List String
  pop_day : List ℚ
  pop_night : List ℚ
  rain_morning : ℚ
  rain_afternoon : ℚ
  rain_night : ℚ
  snow_morning : ℚ
  snow_afternoon : ℚ
  snow_night : ℚ
deriving DecidableEq

/-- The defaultdict initial value in parse_weather_data. -/
def emptyBucket : DayBucket :=
  { temps := [], feels_like := [], pressure := [], humidity := []
    cloudiness := [], wind_speed := [], wind_gust := [], wind_deg := []
    visibility := [], weather_descriptions := [], pop_day := [], pop_night := []
    rain_morning := 0, rain_afternoon := 0, rain_night := 0
    snow_morning := 0, snow_afternoon := 0, snow_night := 0 }

/-- The loop body of parse_weather_data restricted to one bucket: append the
sample's readings, route pop by the day/night indicator, and add rain/snow to
the bucket of the sample's hour. -/
def updBucket (b : DayBucket) (s : Sample) : DayBucket :=
  let p := periodOf s.hour
  { temps := b.temps ++ [s.temp]
    feels_like := b.feels_like ++ [s.feels_like]
    pressure := b.pressure ++ [s.pressure]
    humidity := b.humidity ++ [s.humidity]
    cloudiness := b.cloudiness ++ [s.cloudiness]
    wind_speed := b.wind_speed ++ [s.wind_speed]
    wind_gust := b.wind_gust ++ [s.wind_gust.getD 0]
    wind_deg := b.wind_deg ++ [s.wind_deg]
    visibility := b.visibility ++ [s.visibility]
    weather_descriptions := b.weather_descriptions ++ [s.description]
    pop_day := if s.pod_day then b.pop_day ++ [s.pop * 100] else b.pop_day
    pop_night := if s.pod_day then b.pop_night else b.pop_night ++ [s.pop * 100]
    rain_morning :=
      if p = .morning then b.rain_morning + s.rain3h.getD 0 else b.rain_morning
    rain_afternoon :=
      if p = .afternoon then b.rain_afternoon + s.rain3h.getD 0 else b.rain_afternoon
    rain_night :=
      if p = .night then b.rain_night + s.rain3h.getD 0 else b.rain_night
    snow_morning :=
      if p = .morning then b.snow_morning + s.snow3h.getD 0 else b.snow_morning
    snow_afternoon :=
      if p = .afternoon then b.snow_afternoon + s.snow3h.getD 0 else b.snow_afternoon
    snow_night :=
      if p = .night then b.snow_night + s.snow3h.getD 0 else b.snow_night }

/-- One iteration of the parse_weather_data loop: fetch (or default) the
bucket of the sample's date and write back the updated bucket. -/
def addEntry (d : List (Int × DayBucket)) (s : Sample) : List (Int × DayBucket) :=
  dset d s.date (updBucket ((dget d s.date).getD emptyBucket) s)

/-- parse_weather_data: group the payload's samples by calendar date. -/
def parse_weather_data (data : RawSeries) : List (Int × DayBucket) :=
  data.list.foldl addEntry []

/-- Day-of-week names indexed from the epoch day (1970-01-01 was a Thursday),
modelling forecast_date.strftime with the %A directive. -/
def dayOfWeekName (date : Int) : String :=
  ["Thursday", "Friday", "Saturday", "Sunday",
   "Monday", "Tuesday", "Wednesday"].getD (date % 7).toNat ""

/-- The relative-date ladder of summarize_daily_forecast, as a function of
(forecast_date - today).days. -/
def relativeLabel (delta : Int) : String :=
  if delta = 0 then "today"
  else if delta = 1 then "tomorrow"
  else if delta = 2 then "in two days"
  else if delta = 3 then "in three days"
  else ""

/-- Number of occurrences of a string in a list (Counter's per-key count). -/
def countOcc (l : List String) (x : String) : Nat :=
  (l.filter fun y => y = x).length

/-- Distinct elements in first-occurrence order: the key order of a Counter
built by feeding the list left to right. -/
def dedupFirst (l : List String) : List String :=
  l.foldl (fun acc x => if x ∈ acc then acc else acc ++ [x]) []

/-- Index of the first occurrence of a string (length when absent); used to
state the first-encountered tie-break of the dominant description. -/
def firstIdx : List String → String → Nat
  | [], _ => 0
  | y :: t, x => if y = x then 0 else firstIdx t x + 1

/-- Counter(l).most_common(1)[0][0]: the most frequent element, ties broken
by first-encountered order (most_common sorts counts with a stable sort over
Counter's insertion-ordered keys).  Returns a default on the empty list, which
the source never reaches because every bucket holds at least one sample. -/
def dominantDescription (l : List String) : String :=
  match dedupFirst l with
  | [] => ""
  | k :: ks => ks.foldl (fun best x => if countOcc l best < countOcc l x then x else best) k

/-- Python min on a nonempty list (0 on the empty list, unreachable here). -/
def listMin : List ℚ → ℚ
  | [] => 0
  | x :: xs => xs.foldl min x

/-- Python max on a nonempty list (0 on the empty list, unreachable here). -/
def listMax : List ℚ → ℚ
  | [] => 0
  | x :: xs => xs.foldl max x

/-- Arithmetic mean; division by a zero length only arises for lists the
source never averages empty. -/
def mean (l : List ℚ) : ℚ := l.sum / l.length

/-- The per-date summary dict built by summarize_daily_forecast, holding the
exact values the source computes (its f-string rounding is presentation). -/
structure DailySummary where
  dayOfWeek : String
  relativeDate : String
  description : String
  tempMin : ℚ
  tempMax : ℚ
  feelsLikeMean : ℚ
  pressureMean : ℚ
  humidityMean : ℚ
  cloudinessMean : ℚ
  windSpeedMean : ℚ
  windGustMax : ℚ
  windDegMean : ℚ
  visibilityMean : ℚ
  popDayAvg : ℚ
  popNightAvg : ℚ
  rainMorning : ℚ
  rainAfternoon : ℚ
  rainNight : ℚ
  snowMorning : ℚ
  snowAfternoon : ℚ
  snowNight : ℚ
deriving DecidableEq

/-- The body of the summarize_daily_forecast loop for one date. -/
def summarizeBucket (today : Int) (date : Int) (v : DayBucket) : DailySummary :=
  { dayOfWeek := dayOfWeekName date
    relativeDate := relativeLabel (date - today)
    description := dominantDescription v.weather_descriptions
    tempMin := listMin v.temps
    tempMax := listMax v.temps
    feelsLikeMean := mean v.feels_like
    pressureMean := mean v.pressure
    humidityMean := mean v.humidity
    cloudinessMean := mean v.cloudiness
    windSpeedMean := mean v.wind_speed
    windGustMax := listMax v.wind_gust
    windDegMean := mean v.wind_deg
    visibilityMean := mean v.visibility
    popDayAvg := if v.pop_day = [] then 0 else mean v.pop_day
    popNightAvg := if v.pop_night = [] then 0 else mean v.pop_night
    rainMorning := v.rain_morning
    rainAfternoon := v.rain_afternoon
    rainNight := v.rain_night
    snowMorning := v.snow_morning
    snowAfternoon := v.snow_afternoon
    snowNight := v.snow_night }

/-- summarize_daily_forecast: summarize every date of the parsed data, in
dict insertion order. -/
def summarize_daily_forecast (today : Int) (daily : List (Int × DayBucket)) :
    List (Int × DailySummary) :=
  daily.map fun p => (p.1, summarizeBucket today p.1 p.2)

/-- What the network holds for one city: the outcomes fetch_weather
distinguishes when it actually goes out to the wire.  `unresolved` covers
get_coordinates returning (None, None) for any of its reasons (empty match
list, non-200 status, unparsable payload); the other three describe the
forecast endpoint's answer for a resolved city. -/
inductive FetchOutcome where
  | unresolved
  | badJson
  | badStatus (code : Nat) (body : String)
  | success (data : RawSeries)
deriving DecidableEq

/-- The per-city value fetch_weather puts into city_forecasts: the raw
payload on success, or one of the error dicts. -/
inductive CityData where
  | ok (data : RawSeries)
  | errMsg (msg : String)
  | errStatus (code : Nat) (body : String)
deriving DecidableEq

def invalidCityMsg : String := "Invalid city name or coordinates could not be retrieved"

def invalidJsonMsg : String := "Invalid JSON response from API"

/-- The cache is the weather_cache dict: city name to (payload, timestamp). -/
abbrev Cache := List (String × (RawSeries × Nat))

/-- The cache-check path at the top of the fetch_weather loop: a valid hit
requires an entry whose age is strictly below the validity period; an absent
or expired entry is a miss. -/
def validCached (P now : Nat) (cache : Cache) (city : String) : Option RawSeries :=
  match dget cache city with
  | some (data, ts) => if now - ts < P then some data else none
  | none => none

/-- Accumulator threaded through the fetch_weather loop: the city_forecasts
dict, the weather_cache dict, and the log of cities for which the network was
consulted (the fall-through past the cache check). -/
structure FetchAcc where
  forecasts : List (String × CityData)
  cache : Cache
  log : List String
deriving DecidableEq

/-- One iteration of the fetch_weather loop. -/
def fetchCity (env : String → FetchOutcome) (P now : Nat)
    (st : FetchAcc) (city : String) : FetchAcc :=
  match validCached P now st.cache city with
  | some data => { st with forecasts := dset st.forecasts city (.ok data) }
  | none =>
    match env city with
    | .unresolved =>
        { forecasts := dset st.forecasts city (.errMsg invalidCityMsg)
          cache := st.cache, log := st.log ++ [city] }
    | .success data =>
        { forecasts := dset st.forecasts city (.ok data)
          cache := dset st.cache city (data, now), log := st.log ++ [city] }
    | .badJson =>
        { forecasts := dset st.forecasts city (.errMsg invalidJsonMsg)
          cache := st.cache, log := st.log ++ [city] }
    | .badStatus c b =>
        { forecasts := dset st.forecasts city (.errStatus c b)
          cache := st.cache, log := st.log ++ [city] }

/-- fetch_weather over a list of cities, starting from an empty result dict
and the current cache. -/
def fetch_weather (env : String → FetchOutcome) (P now : Nat)
    (cache : Cache) (cities : List String) : FetchAcc :=
  cities.foldl (fetchCity env P now) ⟨[], cache, []⟩

/-- The outcome fetch_weather produces for one city processed alone against a
given cache, read off the loop body. -/
def singleOutcome (env : String → FetchOutcome) (P now : Nat)
    (cache : Cache) (city : String) : CityData :=
  match validCached P now cache city with
  | some data => .ok data
  | none =>
    match env city with
    | .unresolved => .errMsg invalidCityMsg
    | .success data => .ok data
    | .badJson => .errMsg invalidJsonMsg
    | .badStatus c b => .errStatus c b

/-- The per-city value stored by get_weather_forecasts in weather_forecasts:
either an error dict holding the original "error" value (a message string or
a status code), or the sunrise/sunset pair plus the daily summaries. -/
inductive CityForecast where
  | err (v : String ⊕ Nat)
  | ok (sunrise sunset : Nat) (daily : List (Int × DailySummary))
deriving DecidableEq

/-- The branch of the get_weather_forecasts loop on one fetched value. -/
def cityDataToForecast (today : Int) : CityData → CityForecast
  | .errMsg m => .err (.inl m)
  | .errStatus c _ => .err (.inr c)
  | .ok data =>
      .ok data.sunrise data.sunset
        (summarize_daily_forecast today (parse_weather_data data))

/-- The error dict fetch_weather produces for a failing network outcome
(none on success): resolution failure and unparsable payload carry their
message, a non-200 status carries code and body. -/
def failData : FetchOutcome → Option CityData
  | .unresolved => some (.errMsg invalidCityMsg)
  | .badJson => some (.errMsg invalidJsonMsg)
  | .badStatus code body => some (.errStatus code body)
  | .success _ => none

/-- The "error" value get_weather_forecasts keeps from a failing outcome
(none on success): the message string, or just the status code. -/
def errOf : FetchOutcome → Option (String ⊕ Nat)
  | .unresolved => some (.inl invalidCityMsg)
  | .badJson => some (.inl invalidJsonMsg)
  | .badStatus code _ => some (.inr code)
  | .success _ => none

/-- The mutable state of a WeatherService instance. -/
structure ServiceState where
  weather_cache : Cache
  locations : List String
  weather_forecasts : List (String × CityForecast)
deriving DecidableEq

/-- clear_data: reset cache, location set and accumulated forecasts.  The
reset path of ui_service (reset_chat) invokes exactly this on the service. -/
def clear_data (_ : ServiceState) : ServiceState :=
  { weather_cache := [], locations := [], weather_forecasts := [] }

/-- set.update for one element, keeping the list duplicate-free. -/
def insertLoc (locs : List String) (c : String) : List String :=
  if c ∈ locs then locs else locs ++ [c]

/-- Result of one get_weather_forecasts call: the returned dict (the full
accumulated weather_forecasts), the new service state, and the fetch log. -/
structure MergeResult where
  output : List (String × CityForecast)
  state : ServiceState
  log : List String
deriving DecidableEq

/-- The list comprehension selecting cities not yet in self.locations. -/
def newCities (s : ServiceState) (cities : List String) : List String :=
  cities.filter fun c => decide (c ∉ s.locations)

/-- The loop of get_weather_forecasts that writes each fetched city's value
into the accumulated weather_forecasts dict. -/
def mergeForecasts (today : Int) (fetched : List (String × CityData))
    (wf : List (String × CityForecast)) : List (String × CityForecast) :=
  fetched.foldl (fun acc p => dset acc p.1 (cityDataToForecast today p.2)) wf

/-- get_weather_forecasts: partition into new vs known cities, extend the
location set, fetch only the new cities, convert each fetched value, and
return the full accumulated dict. -/
def get_weather_forecasts (env : String → FetchOutcome) (P now : Nat)
    (today : Int) (s : ServiceState) (cities : List String) : MergeResult :=
  if (newCities s cities).isEmpty then
    { output := s.weather_forecasts
      state := { s with locations := (newCities s cities).foldl insertLoc s.locations }
      log := [] }
  else
    { output := mergeForecasts today
        (fetch_weather env P now s.weather_cache (newCities s cities)).forecasts
        s.weather_forecasts
      state :=
        { weather_cache := (fetch_weather env P now s.weather_cache (newCities s cities)).cache
          locations := (newCities s cities).foldl insertLoc s.locations
          weather_forecasts := mergeForecasts today
            (fetch_weather env P now s.weather_cache (newCities s cities)).forecasts
            s.weather_forecasts }
      log := (fetch_weather env P now s.weather_cache (newCities s cities)).log }

/-! ### Concrete inputs used to instantiate the theorems -/

/-- A 3-hour sample on epoch day 0 with fixed readings except the varying
hour, day/night flag, precipitation probability, rain and description. -/
def demoSample (hour : Nat) (podDay : Bool) (pop : ℚ) (rain : ℚ) (desc : String) : Sample :=
  { date := 0, hour := hour, temp := 10, feels_like := 9, pressure := 1000
    humidity := 50, cloudiness := 20, wind_speed := 3, wind_gust := some 5
    wind_deg := 180, visibility := 10000, description := desc, pod_day := podDay
    pop := pop, rain3h := some rain, snow3h := none }

/-- A payload with a 07:00 day sample (rain 2) and a 20:00 night sample
(rain 3) on the same date. -/
def demoSeries : RawSeries :=
  { list := [demoSample 7 true 1 2 "cloudy", demoSample 20 false 1 3 "sunny"]
    sunrise := 1000, sunset := 2000 }

/-- The bucket parse_weather_data builds for day 0 of demoSeries. -/
def demoBucket : DayBucket := (dget (parse_weather_data demoSeries) 0).get (by decide)

/-- A bucket whose description sequence has a two-against-one tie pattern. -/
def demoDescBucket : DayBucket :=
  { emptyBucket with weather_descriptions := ["cloudy", "sunny", "cloudy"] }

/-- A cache holding demoSeries for Paris, stamped at time 100. -/
def demoCache : Cache := [("Paris", (demoSeries, 100))]

/-- A network where Paris resolves and fetches demoSeries and every other
city is unresolvable. -/
def demoEnv : String → FetchOutcome :=
  fun c => if c = "Paris" then .success demoSeries else .unresolved

/-- A freshly constructed (or freshly reset) service state. -/
def emptyState : ServiceState :=
  { weather_cache := [], locations := [], weather_forecasts := [] }

/-- A network whose forecast endpoint answers every city with a 500. -/
def demoEnvDown : String → FetchOutcome :=
  fun _ => .badStatus 500 "Internal Server Error"

/-! ### Association-list lemmas -/

theorem dget_dset_self {K V : Type} [DecidableEq K] (d : List (K × V)) (k : K) (v : V) :
    dget (dset d k v) k = some v := by
  induction d with
  | nil => simp [dget, dset]
  | cons p rest ih =>
    obtain ⟨k2, w⟩ := p
    by_cases h : k2 = k <;> simp [dget, dset, h, ih]

theorem dget_dset_ne {K V : Type} [DecidableEq K] (d : List (K × V)) (k key : K) (v : V)
    (h : k ≠ key) : dget (dset d k v) key = dget d key := by
  induction d with
  | nil => simp [dget, dset, h]
  | cons p rest ih =>
    obtain ⟨k2, w⟩ := p
    by_cases h2 : k2 = k
    · subst h2; simp [dget, dset, h]
    · simp [dget, dset, h2, ih]

theorem dget_isSome_dset {K V : Type} [DecidableEq K] (d : List (K × V)) (k key : K)
    (v : V) (h : dget d key ≠ none) : dget (dset d k v) key ≠ none := by
  by_cases hk : k = key
  · subst hk; simp [dget_dset_self]
  · rwa [dget_dset_ne d k key v hk]

theorem mem_keys_dset {K V : Type} [DecidableEq K] (d : List (K × V)) (k x : K) (v : V)
    (h : x ∈ (dset d k v).map Prod.fst) : x ∈ d.map Prod.fst ∨ x = k := by
  induction d with
  | nil => simpa [dset] using h
  | cons p rest ih =>
    obtain ⟨k2, w⟩ := p
    by_cases h2 : k2 = k
    · subst h2
      simp [dset] at h ⊢
      tauto
    · simp only [dset, if_neg h2, List.map_cons, List.mem_cons] at h ⊢
      rcases h with h | h
      · exact Or.inl (Or.inl h)
      · rcases ih h with h3 | h3
        · exact Or.inl (Or.inr h3)
        · exact Or.inr h3

theorem keys_nodup_dset {K V : Type} [DecidableEq K] (d : List (K × V)) (k : K) (v : V)
    (h : (d.map Prod.fst).Nodup) : ((dset d k v).map Prod.fst).Nodup := by
  induction d with
  | nil => simp [dset]
  | cons p rest ih =>
    obtain ⟨k2, w⟩ := p
    simp only [List.map_cons, List.nodup_cons] at h
    by_cases h2 : k2 = k
    · subst h2
      simpa [dset, List.nodup_cons] using h
    · simp only [dset, if_neg h2, List.map_cons, List.nodup_cons]
      refine ⟨fun hmem => ?_, ih h.2⟩
      rcases mem_keys_dset rest k k2 v hmem with h3 | h3
      · exact h.1 h3
      · exact h2 h3

/-- An in-order insert-with-overwrite fold computes dict lookup pointwise,
provided the source association list has unique keys. -/
theorem dget_foldl_dset {K A V : Type} [DecidableEq K] (f : A → V)
    (l : List (K × A)) (wf : List (K × V)) (c : K) :
    (∀ p ∈ l, p.1 ≠ c) →
      dget (l.foldl (fun acc p => dset acc p.1 (f p.2)) wf) c = dget wf c := by
  induction l generalizing wf with
  | nil => intro _; rfl
  | cons p rest ih =>
    intro h
    obtain ⟨k, a⟩ := p
    have hk : k ≠ c := h (k, a) (by simp)
    simp only [List.foldl_cons]
    rw [ih _ fun q hq => h q (by simp [hq]), dget_dset_ne _ _ _ _ hk]

theorem dget_foldl_dset_of_mem {K A V : Type} [DecidableEq K] (f : A → V)
    (l : List (K × A)) (wf : List (K × V)) (c : K) (a : A)
    (hnd : (l.map Prod.fst).Nodup) (h : dget l c = some a) :
    dget (l.foldl (fun acc p => dset acc p.1 (f p.2)) wf) c = some (f a) := by
  induction l generalizing wf with
  | nil => simp [dget] at h
  | cons p rest ih =>
    obtain ⟨k, b⟩ := p
    simp only [List.map_cons, List.nodup_cons] at hnd
    by_cases hk : k = c
    · subst hk
      simp [dget] at h
      subst h
      have hrest : ∀ q ∈ rest, q.1 ≠ k := by
        intro q hq hqk
        exact hnd.1 (hqk ▸ List.mem_map_of_mem Prod.fst hq)
      simp only [List.foldl_cons]
      rw [dget_foldl_dset f rest _ k hrest, dget_dset_self]
    · simp only [dget, if_neg hk] at h
      simp only [List.foldl_cons]
      exact ih _ hnd.2 h

/-! ### Location-set lemmas -/

theorem mem_foldl_insertLoc_of_mem_acc (l : List String) (acc : List String)
    (x : String) (h : x ∈ acc) : x ∈ l.foldl insertLoc acc := by
  induction l generalizing acc with
  | nil => exact h
  | cons c rest ih =>
    simp only [List.foldl_cons]
    refine ih _ ?_
    unfold insertLoc
    split <;> simp [h]

theorem mem_foldl_insertLoc_of_mem (l : List String) (acc : List String)
    (x : String) (h : x ∈ l) : x ∈ l.foldl insertLoc acc := by
  induction l generalizing acc with
  | nil => simp at h
  | cons c rest ih =>
    simp only [List.foldl_cons]
    rcases List.mem_cons.mp h with h | h
    · subst h
      refine mem_foldl_insertLoc_of_mem_acc _ _ _ ?_
      unfold insertLoc
      split <;> simp [*]
    · exact ih _ h

/-! ### Step lemmas for the fetch_weather loop body -/

theorem validCached_congr (P now : Nat) (c1 c2 : Cache) (x : String)
    (h : dget c1 x = dget c2 x) : validCached P now c1 x = validCached P now c2 x := by
  unfold validCached
  rw [h]

theorem singleOutcome_congr (env : String → FetchOutcome) (P now : Nat)
    (c1 c2 : Cache) (x : String) (h : dget c1 x = dget c2 x) :
    singleOutcome env P now c1 x = singleOutcome env P now c2 x := by
  unfold singleOutcome
  rw [validCached_congr P now c1 c2 x h]

theorem validCached_none_of_dget_none (P now : Nat) (cache : Cache) (x : String)
    (h : dget cache x = none) : validCached P now cache x = none := by
  unfold validCached
  rw [h]

/-- Whatever path the loop body takes, the result dict gains exactly the
per-city outcome under the current cache. -/
theorem fetchCity_forecasts (env : String → FetchOutcome) (P now : Nat)
    (st : FetchAcc) (c : String) :
    (fetchCity env P now st c).forecasts =
      dset st.forecasts c (singleOutcome env P now st.cache c) := by
  unfold fetchCity singleOutcome
  cases h : validCached P now st.cache c
  · cases he : env c <;> rfl
  · rfl

/-- A valid cache hit reuses the entry and leaves cache and log untouched. -/
theorem fetchCity_hit (env : String → FetchOutcome) (P now : Nat)
    (st : FetchAcc) (c : String) (data : RawSeries)
    (h : validCached P now st.cache c = some data) :
    fetchCity env P now st c = { st with forecasts := dset st.forecasts c (.ok data) } := by
  unfold fetchCity
  rw [h]

/-- A cache miss always consults the network and records it in the log. -/
theorem fetchCity_miss_log (env : String → FetchOutcome) (P now : Nat)
    (st : FetchAcc) (c : String) (h : validCached P now st.cache c = none) :
    (fetchCity env P now st c).log = st.log ++ [c] := by
  unfold fetchCity
  rw [h]
  cases he : env c <;> rfl

/-- A failing city (unresolvable, non-200 status, or unparsable payload) on
a cache miss yields its error dict, is logged, and touches neither the cache
nor any other city. -/
theorem fetchCity_failure (env : String → FetchOutcome) (P now : Nat)
    (st : FetchAcc) (c : String) (d : CityData)
    (hv : validCached P now st.cache c = none) (he : failData (env c) = some d) :
    fetchCity env P now st c =
      { forecasts := dset st.forecasts c d
        cache := st.cache, log := st.log ++ [c] } := by
  unfold fetchCity
  rw [hv]
  cases ho : env c <;> rw [ho] at he <;> simp [failData] at he <;> subst he <;> rfl

theorem fetchCity_log_cases (env : String → FetchOutcome) (P now : Nat)
    (st : FetchAcc) (c : String) :
    (fetchCity env P now st c).log = st.log ∨
    (fetchCity env P now st c).log = st.log ++ [c] := by
  cases h : validCached P now st.cache c
  · exact Or.inr (fetchCity_miss_log env P now st c h)
  · rw [fetchCity_hit env P now st c _ h]
    exact Or.inl rfl

/-- The loop body changes the cache at one city at most: a write happens only
on a miss answered by a successful fetch, it stores the fetched payload with
timestamp now, and the network consultation is on the log. -/
theorem dget_fetchCity_cache (env : String → FetchOutcome) (P now : Nat)
    (st : FetchAcc) (c x : String) :
    dget (fetchCity env P now st c).cache x = dget st.cache x ∨
    ∃ data, env x = .success data ∧
      dget (fetchCity env P now st c).cache x = some (data, now) ∧
      x ∈ (fetchCity env P now st c).log := by
  cases h : validCached P now st.cache c
  · unfold fetchCity
    rw [h]
    cases he : env c
    case unresolved => exact Or.inl rfl
    case badJson => exact Or.inl rfl
    case badStatus code body => exact Or.inl rfl
    case success data =>
      by_cases hx : c = x
      · subst hx
        exact Or.inr ⟨data, he, dget_dset_self _ _ _, by simp⟩
      · exact Or.inl (dget_dset_ne _ _ _ _ hx)
  · rw [fetchCity_hit env P now st c _ h]
    exact Or.inl rfl

theorem dget_fetchCity_cache_ne (env : String → FetchOutcome) (P now : Nat)
    (st : FetchAcc) (c x : String) (hx : x ≠ c) :
    dget (fetchCity env P now st c).cache x = dget st.cache x := by
  cases h : validCached P now st.cache c
  · unfold fetchCity
    rw [h]
    cases he : env c
    case success data => exact dget_dset_ne _ _ _ _ fun hh => hx hh.symm
    all_goals rfl
  · rw [fetchCity_hit env P now st c _ h]

theorem fetchCity_log_mono (env : String → FetchOutcome) (P now : Nat)
    (st : FetchAcc) (c x : String) (h : x ∈ st.log) :
    x ∈ (fetchCity env P now st c).log := by
  rcases fetchCity_log_cases env P now st c with h2 | h2 <;> rw [h2] <;> simp [h]

/-! ### Invariants of the fetch_weather fold -/

theorem foldl_fetch_forecasts_preserve (env : String → FetchOutcome) (P now : Nat)
    (cities : List String) (st : FetchAcc) (x : String) (h : x ∉ cities) :
    dget (cities.foldl (fetchCity env P now) st).forecasts x = dget st.forecasts x := by
  induction cities generalizing st with
  | nil => rfl
  | cons c rest ih =>
    have hr : x ∉ rest := fun hh => h (List.mem_cons_of_mem _ hh)
    have hc : x ≠ c := fun hh => h (hh ▸ List.mem_cons_self c rest)
    simp only [List.foldl_cons]
    rw [ih _ hr, fetchCity_forecasts, dget_dset_ne _ _ _ _ fun hh => hc hh.symm]

theorem foldl_fetch_cache_preserve (env : String → FetchOutcome) (P now : Nat)
    (cities : List String) (st : FetchAcc) (x : String) (h : x ∉ cities) :
    dget (cities.foldl (fetchCity env P now) st).cache x = dget st.cache x := by
  induction cities generalizing st with
  | nil => rfl
  | cons c rest ih =>
    have hr : x ∉ rest := fun hh => h (List.mem_cons_of_mem _ hh)
    have hc : x ≠ c := fun hh => h (hh ▸ List.mem_cons_self c rest)
    simp only [List.foldl_cons]
    rw [ih _ hr, dget_fetchCity_cache_ne env P now st c x hc]

theorem foldl_fetch_log_mono (env : String → FetchOutcome) (P now : Nat)
    (cities : List String) (st : FetchAcc) (x : String) (h : x ∈ st.log) :
    x ∈ (cities.foldl (fetchCity env P now) st).log := by
  induction cities generalizing st with
  | nil => exact h
  | cons c rest ih =>
    simp only [List.foldl_cons]
    exact ih _ (fetchCity_log_mono env P now st c x h)

theorem foldl_fetch_log_sub (env : String → FetchOutcome) (P now : Nat)
    (cities : List String) (st : FetchAcc) (x : String)
    (h : x ∈ (cities.foldl (fetchCity env P now) st).log) : x ∈ st.log ∨ x ∈ cities := by
  induction cities generalizing st with
  | nil => exact Or.inl h
  | cons c rest ih =>
    simp only [List.foldl_cons] at h
    rcases ih _ h with h2 | h2
    · rcases fetchCity_log_cases env P now st c with h3 | h3 <;> rw [h3] at h2
      · exact Or.inl h2
      · rcases List.mem_append.mp h2 with h4 | h4
        · exact Or.inl h4
        · simp at h4
          simp [h4]
    · simp [h2]

/-- Across a whole batch, a cache entry either survives untouched or holds a
successfully fetched payload freshly stamped with now, with the fetch logged. -/
theorem foldl_fetch_cache_spec (env : String → FetchOutcome) (P now : Nat)
    (cities : List String) (st : FetchAcc) (x : String) :
    dget (cities.foldl (fetchCity env P now) st).cache x = dget st.cache x ∨
    ∃ data, env x = .success data ∧
      dget (cities.foldl (fetchCity env P now) st).cache x = some (data, now) ∧
      x ∈ (cities.foldl (fetchCity env P now) st).log := by
  induction cities generalizing st with
  | nil => exact Or.inl rfl
  | cons c rest ih =>
    simp only [List.foldl_cons]
    rcases ih (fetchCity env P now st c) with h | ⟨data, he, hd, hl⟩
    · rcases dget_fetchCity_cache env P now st c x with h2 | ⟨data, he, hd, hl⟩
      · exact Or.inl (h.trans h2)
      · exact Or.inr ⟨data, he, h.trans hd,
          foldl_fetch_log_mono env P now rest _ x hl⟩
    · exact Or.inr ⟨data, he, hd, hl⟩

theorem foldl_fetch_forecasts_some (env : String → FetchOutcome) (P now : Nat)
    (cities : List String) (st : FetchAcc) (x : String)
    (h : dget st.forecasts x ≠ none) :
    dget (cities.foldl (fetchCity env P now) st).forecasts x ≠ none := by
  induction cities generalizing st with
  | nil => exact h
  | cons c rest ih =>
    simp only [List.foldl_cons]
    refine ih _ ?_
    rw [fetchCity_forecasts]
    exact dget_isSome_dset _ _ _ _ h

/-- Every requested city ends up with an entry in the result dict. -/
theorem foldl_fetch_forecasts_mem (env : String → FetchOutcome) (P now : Nat)
    (cities : List String) (st : FetchAcc) (x : String) (h : x ∈ cities) :
    dget (cities.foldl (fetchCity env P now) st).forecasts x ≠ none := by
  induction cities generalizing st with
  | nil => simp at h
  | cons c rest ih =>
    simp only [List.foldl_cons]
    by_cases hr : x ∈ rest
    · exact ih _ hr
    · have hc : x = c := by
        rcases List.mem_cons.mp h with h2 | h2
        · exact h2
        · exact absurd h2 hr
      subst hc
      refine foldl_fetch_forecasts_some env P now rest _ x ?_
      rw [fetchCity_forecasts, dget_dset_self]
      simp

theorem foldl_fetch_forecasts_nodup (env : String → FetchOutcome) (P now : Nat)
    (cities : List String) (st : FetchAcc)
    (h : (st.forecasts.map Prod.fst).Nodup) :
    (((cities.foldl (fetchCity env P now) st).forecasts).map Prod.fst).Nodup := by
  induction cities generalizing st with
  | nil => exact h
  | cons c rest ih =>
    simp only [List.foldl_cons]
    refine ih _ ?_
    rw [fetchCity_forecasts]
    exact keys_nodup_dset _ _ _ h

/-- With no duplicate city in the batch, each city's result entry is exactly
the outcome it would get processed alone against the initial cache: one
city's failure neither aborts nor alters another city's processing. -/
theorem foldl_fetch_isolation (env : String → FetchOutcome) (P now : Nat)
    (cache0 : Cache) (cities : List String) (st : FetchAcc) (x : String)
    (hnd : cities.Nodup) (hx : x ∈ cities)
    (hagree : dget st.cache x = dget cache0 x) :
    dget (cities.foldl (fetchCity env P now) st).forecasts x =
      some (singleOutcome env P now cache0 x) := by
  induction cities generalizing st with
  | nil => simp at hx
  | cons c rest ih =>
    simp only [List.foldl_cons]
    rcases List.mem_cons.mp hx with hxc | hxr
    · subst hxc
      have hrest : x ∉ rest := (List.nodup_cons.mp hnd).1
      rw [foldl_fetch_forecasts_preserve env P now rest _ x hrest,
        fetchCity_forecasts, dget_dset_self,
        singleOutcome_congr env P now st.cache cache0 x hagree]
    · have hxc : x ≠ c := by
        intro hh
        exact (List.nodup_cons.mp hnd).1 (hh ▸ hxr)
      refine ih _ (List.nodup_cons.mp hnd).2 hxr ?_
      rw [dget_fetchCity_cache_ne env P now st c x hxc]
      exact hagree

/-- A city whose resolution or fetch fails receives its error dict, whatever
else is in the batch, as long as it has no cache entry. -/
theorem foldl_fetch_failure (env : String → FetchOutcome) (P now : Nat)
    (cities : List String) (st : FetchAcc) (x : String) (d : CityData)
    (hx : x ∈ cities) (henv : failData (env x) = some d)
    (hc : dget st.cache x = none) :
    dget (cities.foldl (fetchCity env P now) st).forecasts x = some d := by
  induction cities generalizing st with
  | nil => simp at hx
  | cons c rest ih =>
    simp only [List.foldl_cons]
    by_cases hxr : x ∈ rest
    · refine ih _ hxr ?_
      by_cases hxc : x = c
      · subst hxc
        rw [fetchCity_failure env P now st x d
          (validCached_none_of_dget_none P now st.cache x hc) henv]
        exact hc
      · rw [dget_fetchCity_cache_ne env P now st c x hxc]
        exact hc
    · have hxc : x = c := by
        rcases List.mem_cons.mp hx with h2 | h2
        · exact h2
        · exact absurd h2 hxr
      subst hxc
      rw [foldl_fetch_forecasts_preserve env P now rest _ x hxr,
        fetchCity_forecasts, dget_dset_self]
      have hsingle : singleOutcome env P now st.cache x = d := by
        unfold singleOutcome
        rw [validCached_none_of_dget_none P now st.cache x hc]
        cases ho : env x <;> rw [ho] at henv <;> simp [failData] at henv <;> subst henv <;> rfl
      rw [hsingle]

/-! ### Lemmas about get_weather_forecasts -/

theorem dget_ne_none_of_mem {K V : Type} [DecidableEq K] (d : List (K × V))
    (p : K × V) (h : p ∈ d) : dget d p.1 ≠ none := by
  induction d with
  | nil => simp at h
  | cons q rest ih =>
    obtain ⟨k, v⟩ := q
    by_cases hk : k = p.1
    · simp [dget, hk]
    · simp only [dget, if_neg hk]
      rcases List.mem_cons.mp h with h2 | h2
      · exact absurd (congrArg Prod.fst h2).symm hk
      · exact ih h2

theorem mem_newCities (s : ServiceState) (cities : List String) (x : String) :
    x ∈ newCities s cities ↔ x ∈ cities ∧ x ∉ s.locations := by
  simp [newCities, List.mem_filter]

/-- The dict get_weather_forecasts returns is the accumulated
weather_forecasts of the state it leaves behind. -/
theorem gwf_output_eq (env : String → FetchOutcome) (P now : Nat) (today : Int)
    (s : ServiceState) (cities : List String) :
    (get_weather_forecasts env P now today s cities).output =
      (get_weather_forecasts env P now today s cities).state.weather_forecasts := by
  unfold get_weather_forecasts
  split <;> rfl

theorem gwf_state_locations (env : String → FetchOutcome) (P now : Nat) (today : Int)
    (s : ServiceState) (cities : List String) :
    (get_weather_forecasts env P now today s cities).state.locations =
      (newCities s cities).foldl insertLoc s.locations := by
  unfold get_weather_forecasts
  split <;> rfl

/-- Every input city, and every previously known city, is in the location
set after the call. -/
theorem gwf_locations_mem (env : String → FetchOutcome) (P now : Nat) (today : Int)
    (s : ServiceState) (cities : List String) (x : String)
    (h : x ∈ cities ∨ x ∈ s.locations) :
    x ∈ (get_weather_forecasts env P now today s cities).state.locations := by
  rw [gwf_state_locations]
  rcases h with h | h
  · by_cases hloc : x ∈ s.locations
    · exact mem_foldl_insertLoc_of_mem_acc _ _ _ hloc
    · exact mem_foldl_insertLoc_of_mem _ _ _ ((mem_newCities s cities x).mpr ⟨h, hloc⟩)
  · exact mem_foldl_insertLoc_of_mem_acc _ _ _ h

/-- When every requested city is already known, the call fetches nothing,
changes nothing, and returns the accumulated dict as is. -/
theorem gwf_all_known (env : String → FetchOutcome) (P now : Nat) (today : Int)
    (s : ServiceState) (cities : List String) (h : ∀ c ∈ cities, c ∈ s.locations) :
    get_weather_forecasts env P now today s cities =
      { output := s.weather_forecasts, state := s, log := [] } := by
  have hnc : newCities s cities = [] := by
    simp only [newCities, List.filter_eq_nil_iff, decide_eq_true_eq, not_not]
    intro a ha
    simp [h a ha]
  unfold get_weather_forecasts
  rw [hnc]
  rfl

/-- Unfolding of the branch with genuinely new cities. -/
theorem gwf_fetch_branch (env : String → FetchOutcome) (P now : Nat) (today : Int)
    (s : ServiceState) (cities : List String) (h : newCities s cities ≠ []) :
    get_weather_forecasts env P now today s cities =
      { output := mergeForecasts today
          (fetch_weather env P now s.weather_cache (newCities s cities)).forecasts
          s.weather_forecasts
        state :=
          { weather_cache := (fetch_weather env P now s.weather_cache (newCities s cities)).cache
            locations := (newCities s cities).foldl insertLoc s.locations
            weather_forecasts := mergeForecasts today
              (fetch_weather env P now s.weather_cache (newCities s cities)).forecasts
              s.weather_forecasts }
        log := (fetch_weather env P now s.weather_cache (newCities s cities)).log } := by
  have hb : (newCities s cities).isEmpty = false := by
    cases hnc : newCities s cities
    · exact absurd hnc h
    · rfl
  unfold get_weather_forecasts
  simp [hb]

/-- The call's fetch log only holds cities that were new to this call. -/
theorem gwf_log_sub (env : String → FetchOutcome) (P now : Nat) (today : Int)
    (s : ServiceState) (cities : List String) (x : String)
    (h : x ∈ (get_weather_forecasts env P now today s cities).log) :
    x ∈ newCities s cities := by
  by_cases hnc : newCities s cities = []
  · rw [gwf_all_known env P now today s cities] at h
    · simp at h
    · intro c hc
      by_contra hcl
      rw [List.eq_nil_iff_forall_not_mem] at hnc
      exact hnc c ((mem_newCities s cities c).mpr ⟨hc, hcl⟩)
  · rw [gwf_fetch_branch env P now today s cities hnc] at h
    simp only at h
    unfold fetch_weather at h
    rcases foldl_fetch_log_sub env P now (newCities s cities) _ x h with h2 | h2
    · simp at h2
    · exact h2

/-- Cities that were not fetched in this call keep their accumulated entry
(or absence of one) unchanged. -/
theorem gwf_wf_preserve (env : String → FetchOutcome) (P now : Nat) (today : Int)
    (s : ServiceState) (cities : List String) (x : String)
    (h : x ∉ newCities s cities) :
    dget (get_weather_forecasts env P now today s cities).state.weather_forecasts x =
      dget s.weather_forecasts x := by
  by_cases hnc : newCities s cities = []
  · unfold get_weather_forecasts
    rw [hnc]
    rfl
  · rw [gwf_fetch_branch env P now today s cities hnc]
    simp only
    unfold mergeForecasts
    refine dget_foldl_dset (cityDataToForecast today) _ _ x fun p hp hpx => ?_
    refine h ?_
    subst hpx
    have hk := dget_ne_none_of_mem _ p hp
    by_contra hxnc
    unfold fetch_weather at hk
    rw [foldl_fetch_forecasts_preserve env P now (newCities s cities) _ p.1 hxnc] at hk
    exact hk rfl

/-- A failing outcome's error dict converts to exactly the stored "error"
value, independently of the current date. -/
theorem failData_errOf (o : FetchOutcome) (e : String ⊕ Nat)
    (he : errOf o = some e) :
    ∃ d, failData o = some d ∧ ∀ t : Int, cityDataToForecast t d = .err e := by
  cases o <;> simp [errOf] at he
  case unresolved =>
    exact ⟨.errMsg invalidCityMsg, rfl, fun t => by rw [← he]; rfl⟩
  case badJson =>
    exact ⟨.errMsg invalidJsonMsg, rfl, fun t => by rw [← he]; rfl⟩
  case badStatus code body =>
    exact ⟨.errStatus code body, rfl, fun t => by rw [← he]; rfl⟩

/-- In a call where an unknown, uncached city's resolution or fetch fails,
its error dict lands in the accumulated forecasts under that city's key. -/
theorem gwf_wf_failure (env : String → FetchOutcome) (P now : Nat) (today : Int)
    (s : ServiceState) (cities : List String) (x : String) (d : CityData)
    (hx : x ∈ newCities s cities) (henv : failData (env x) = some d)
    (hcache : dget s.weather_cache x = none) :
    dget (get_weather_forecasts env P now today s cities).state.weather_forecasts x =
      some (cityDataToForecast today d) := by
  have hnc : newCities s cities ≠ [] := by
    intro hh
    rw [hh] at hx
    simp at hx
  rw [gwf_fetch_branch env P now today s cities hnc]
  simp only
  unfold mergeForecasts
  have hkey : dget (fetch_weather env P now s.weather_cache (newCities s cities)).forecasts x =
      some d := by
    unfold fetch_weather
    exact foldl_fetch_failure env P now (newCities s cities) _ x d hx henv hcache
  have hnd : (((fetch_weather env P now s.weather_cache (newCities s cities)).forecasts).map
      Prod.fst).Nodup := by
    unfold fetch_weather
    exact foldl_fetch_forecasts_nodup env P now (newCities s cities) _ (by simp)
  rw [dget_foldl_dset_of_mem (cityDataToForecast today) _ _ x _ hnd hkey]

/-! ### Characterization of the parse_weather_data grouping -/

theorem dget_addEntry_eq (d : List (Int × DayBucket)) (s : Sample) (date : Int)
    (h : s.date = date) :
    dget (addEntry d s) date =
      some (updBucket ((dget d date).getD emptyBucket) s) := by
  unfold addEntry
  rw [h, dget_dset_self]

theorem dget_addEntry_ne (d : List (Int × DayBucket)) (s : Sample) (date : Int)
    (h : s.date ≠ date) : dget (addEntry d s) date = dget d date := by
  unfold addEntry
  exact dget_dset_ne _ _ _ _ h

theorem parse_foldl_some (samples : List Sample) (d : List (Int × DayBucket))
    (date : Int) (b0 : DayBucket) (h : dget d date = some b0) :
    dget (samples.foldl addEntry d) date =
      some ((samples.filter fun s => decide (s.date = date)).foldl updBucket b0) := by
  induction samples generalizing d b0 with
  | nil => simpa using h
  | cons s rest ih =>
    simp only [List.foldl_cons]
    by_cases hd : s.date = date
    · have hstep : dget (addEntry d s) date = some (updBucket b0 s) := by
        rw [dget_addEntry_eq d s date hd, h]
        rfl
      rw [ih _ _ hstep]
      simp [hd]
    · have hstep : dget (addEntry d s) date = some b0 := by
        rw [dget_addEntry_ne d s date hd]
        exact h
      rw [ih _ _ hstep]
      simp [hd]

theorem parse_foldl_none (samples : List Sample) (d : List (Int × DayBucket))
    (date : Int) (h : dget d date = none) :
    dget (samples.foldl addEntry d) date =
      match samples.filter fun s => decide (s.date = date) with
      | [] => none
      | l => some (l.foldl updBucket emptyBucket) := by
  induction samples generalizing d with
  | nil => simpa using h
  | cons s rest ih =>
    simp only [List.foldl_cons]
    by_cases hd : s.date = date
    · have hstep : dget (addEntry d s) date = some (updBucket emptyBucket s) := by
        rw [dget_addEntry_eq d s date hd, h]
        rfl
      rw [parse_foldl_some rest _ date _ hstep]
      simp [hd]
    · have hstep : dget (addEntry d s) date = none := by
        rw [dget_addEntry_ne d s date hd]
        exact h
      rw [ih _ hstep]
      simp [hd]

/-- Every bucket in the parsed output is the fold of the bucket update over
exactly the samples carrying that calendar date, in payload order. -/
theorem parse_bucket_eq (data : RawSeries) (date : Int) (b : DayBucket)
    (h : dget (parse_weather_data data) date = some b) :
    b = (data.list.filter fun s => decide (s.date = date)).foldl updBucket emptyBucket := by
  unfold parse_weather_data at h
  rw [parse_foldl_none data.list [] date rfl] at h
  revert h
  cases data.list.filter fun s => decide (s.date = date) with
  | nil => intro h; cases h
  | cons x l =>
    intro h
    simpa using h.symm

/-! ### Per-field lemmas about the bucket fold -/

theorem foldl_updBucket_pop_day (l : List Sample) (b0 : DayBucket) :
    (l.foldl updBucket b0).pop_day =
      b0.pop_day ++ (l.filter fun s => s.pod_day).map fun s => s.pop * 100 := by
  induction l generalizing b0 with
  | nil => simp
  | cons s rest ih =>
    simp only [List.foldl_cons]
    rw [ih]
    cases hp : s.pod_day <;> simp [updBucket, hp]

theorem foldl_updBucket_pop_night (l : List Sample) (b0 : DayBucket) :
    (l.foldl updBucket b0).pop_night =
      b0.pop_night ++ (l.filter fun s => !s.pod_day).map fun s => s.pop * 100 := by
  induction l generalizing b0 with
  | nil => simp
  | cons s rest ih =>
    simp only [List.foldl_cons]
    rw [ih]
    cases hp : s.pod_day <;> simp [updBucket, hp]

theorem foldl_updBucket_rain_morning (l : List Sample) (b0 : DayBucket) :
    (l.foldl updBucket b0).rain_morning =
      b0.rain_morning +
        ((l.filter fun s => decide (periodOf s.hour = Period.morning)).map
          fun s => s.rain3h.getD 0).sum := by
  induction l generalizing b0 with
  | nil => simp
  | cons s rest ih =>
    simp only [List.foldl_cons]
    rw [ih]
    by_cases hp : periodOf s.hour = Period.morning <;>
      simp [updBucket, hp, add_assoc]

theorem foldl_updBucket_rain_afternoon (l : List Sample) (b0 : DayBucket) :
    (l.foldl updBucket b0).rain_afternoon =
      b0.rain_afternoon +
        ((l.filter fun s => decide (periodOf s.hour = Period.afternoon)).map
          fun s => s.rain3h.getD 0).sum := by
  induction l generalizing b0 with
  | nil => simp
  | cons s rest ih =>
    simp only [List.foldl_cons]
    rw [ih]
    by_cases hp : periodOf s.hour = Period.afternoon <;>
      simp [updBucket, hp, add_assoc]

theorem foldl_updBucket_rain_night (l : List Sample) (b0 : DayBucket) :
    (l.foldl updBucket b0).rain_night =
      b0.rain_night +
        ((l.filter fun s => decide (periodOf s.hour = Period.night)).map
          fun s => s.rain3h.getD 0).sum := by
  induction l generalizing b0 with
  | nil => simp
  | cons s rest ih =>
    simp only [List.foldl_cons]
    rw [ih]
    by_cases hp : periodOf s.hour = Period.night <;>
      simp [updBucket, hp, add_assoc]

theorem foldl_updBucket_snow_morning (l : List Sample) (b0 : DayBucket) :
    (l.foldl updBucket b0).snow_morning =
      b0.snow_morning +
        ((l.filter fun s => decide (periodOf s.hour = Period.morning)).map
          fun s => s.snow3h.getD 0).sum := by
  induction l generalizing b0 with
  | nil => simp
  | cons s rest ih =>
    simp only [List.foldl_cons]
    rw [ih]
    by_cases hp : periodOf s.hour = Period.morning <;>
      simp [updBucket, hp, add_assoc]

theorem foldl_updBucket_snow_afternoon (l : List Sample) (b0 : DayBucket) :
    (l.foldl updBucket b0).snow_afternoon =
      b0.snow_afternoon +
        ((l.filter fun s => decide (periodOf s.hour = Period.afternoon)).map
          fun s => s.snow3h.getD 0).sum := by
  induction l generalizing b0 with
  | nil => simp
  | cons s rest ih =>
    simp only [List.foldl_cons]
    rw [ih]
    by_cases hp : periodOf s.hour = Period.afternoon <;>
      simp [updBucket, hp, add_assoc]

theorem foldl_updBucket_snow_night (l : List Sample) (b0 : DayBucket) :
    (l.foldl updBucket b0).snow_night =
      b0.snow_night +
        ((l.filter fun s => decide (periodOf s.hour = Period.night)).map
          fun s => s.snow3h.getD 0).sum := by
  induction l generalizing b0 with
  | nil => simp
  | cons s rest ih =>
    simp only [List.foldl_cons]
    rw [ih]
    by_cases hp : periodOf s.hour = Period.night <;>
      simp [updBucket, hp, add_assoc]

/-! ### The dominant weather description (Counter.most_common semantics) -/

theorem mem_dedup_foldl (l : List String) (acc : List String) (x : String) :
    x ∈ l.foldl (fun a y => if y ∈ a then a else a ++ [y]) acc ↔ x ∈ acc ∨ x ∈ l := by
  induction l generalizing acc with
  | nil => simp
  | cons c rest ih =>
    simp only [List.foldl_cons]
    rw [ih]
    by_cases hc : c ∈ acc
    · simp only [if_pos hc, List.mem_cons]
      constructor
      · rintro (h | h)
        · exact Or.inl h
        · exact Or.inr (Or.inr h)
      · rintro (h | h | h)
        · exact Or.inl h
        · exact Or.inl (by rw [h]; exact hc)
        · exact Or.inr h
    · simp only [if_neg hc, List.mem_append, List.mem_singleton, List.mem_cons]
      tauto

theorem mem_dedupFirst (l : List String) (x : String) :
    x ∈ dedupFirst l ↔ x ∈ l := by
  unfold dedupFirst
  rw [mem_dedup_foldl]
  simp

theorem dedupFirst_ne_nil (l : List String) (h : l ≠ []) : dedupFirst l ≠ [] := by
  cases l with
  | nil => exact absurd rfl h
  | cons c rest =>
    intro hd
    have : c ∈ dedupFirst (c :: rest) := (mem_dedupFirst _ c).mpr (by simp)
    rw [hd] at this
    simp at this

theorem dedupFirst_append_single (l : List String) (x : String) :
    dedupFirst (l ++ [x]) =
      if x ∈ dedupFirst l then dedupFirst l else dedupFirst l ++ [x] := by
  unfold dedupFirst
  rw [List.foldl_append]
  rfl

theorem firstIdx_lt_length (l : List String) (x : String) (h : x ∈ l) :
    firstIdx l x < l.length := by
  induction l with
  | nil => simp at h
  | cons y t ih =>
    by_cases hy : y = x
    · simp [firstIdx, hy]
    · have : x ∈ t := by
        rcases List.mem_cons.mp h with h2 | h2
        · exact absurd h2.symm hy
        · exact h2
      simp only [firstIdx, if_neg hy, List.length_cons]
      exact Nat.succ_lt_succ (ih this)

theorem firstIdx_append_of_mem (l t : List String) (x : String) (h : x ∈ l) :
    firstIdx (l ++ t) x = firstIdx l x := by
  induction l with
  | nil => simp at h
  | cons y rest ih =>
    by_cases hy : y = x
    · simp [firstIdx, hy]
    · have : x ∈ rest := by
        rcases List.mem_cons.mp h with h2 | h2
        · exact absurd h2.symm hy
        · exact h2
      simp only [List.cons_append, firstIdx, if_neg hy]
      exact congrArg (fun n => n + 1) (ih this)

theorem firstIdx_append_self (l : List String) (x : String) (h : x ∉ l) :
    firstIdx (l ++ [x]) x = l.length := by
  induction l with
  | nil => simp [firstIdx]
  | cons y rest ih =>
    have hy : y ≠ x := fun hh => h (hh ▸ List.mem_cons_self y rest)
    simp only [List.cons_append, firstIdx, if_neg hy, List.length_cons]
    exact congrArg (fun n => n + 1) (ih fun hh => h (List.mem_cons_of_mem _ hh))

/-- The first-occurrence key order is strictly increasing in first indices. -/
theorem dedupFirst_pairwise (l : List String) :
    (dedupFirst l).Pairwise fun a b => firstIdx l a < firstIdx l b := by
  induction l using List.reverseRecOn with
  | nil => simp [dedupFirst]
  | append_singleton t x ih =>
    rw [dedupFirst_append_single]
    by_cases hx : x ∈ dedupFirst t
    · rw [if_pos hx]
      refine List.Pairwise.imp_of_mem (fun ha hb hr => ?_) ih
      rwa [firstIdx_append_of_mem t [x] _ ((mem_dedupFirst t _).mp ha),
        firstIdx_append_of_mem t [x] _ ((mem_dedupFirst t _).mp hb)]
    · rw [if_neg hx]
      rw [List.pairwise_append]
      refine ⟨List.Pairwise.imp_of_mem (fun ha hb hr => ?_) ih, by simp, ?_⟩
      · rwa [firstIdx_append_of_mem t [x] _ ((mem_dedupFirst t _).mp ha),
          firstIdx_append_of_mem t [x] _ ((mem_dedupFirst t _).mp hb)]
      · intro a ha b hb
        rw [List.mem_singleton] at hb
        subst hb
        have hxt : b ∉ t := fun hh => hx ((mem_dedupFirst t b).mpr hh)
        have hat : a ∈ t := (mem_dedupFirst t a).mp ha
        rw [firstIdx_append_of_mem t [b] a hat, firstIdx_append_self t b hxt]
        exact firstIdx_lt_length t a hat

/-- Invariant of the most_common fold: the running best has maximal count
among the keys seen, and on equal counts the earlier-first-occurring key is
kept. -/
theorem argmax_fold (l : List String) (ks : List String) (k r : String)
    (hr : r = ks.foldl (fun best x => if countOcc l best < countOcc l x then x else best) k)
    (hp : (k :: ks).Pairwise fun a b => firstIdx l a < firstIdx l b) :
    (r = k ∨ r ∈ ks) ∧
    countOcc l k ≤ countOcc l r ∧
    (∀ x ∈ ks, countOcc l x ≤ countOcc l r) ∧
    (r ≠ k → countOcc l k < countOcc l r) ∧
    (∀ x, (x = k ∨ x ∈ ks) → countOcc l x = countOcc l r →
      x = r ∨ firstIdx l r < firstIdx l x) := by
  induction ks generalizing k with
  | nil =>
    simp only [List.foldl_nil] at hr
    subst hr
    refine ⟨Or.inl rfl, le_refl _, by simp, fun h => absurd rfl h, ?_⟩
    intro x hx _
    rcases hx with hx | hx
    · exact Or.inl hx
    · simp at hx
  | cons a t ih =>
    simp only [List.foldl_cons] at hr
    have hpa : ∀ b ∈ a :: t, firstIdx l k < firstIdx l b := (List.pairwise_cons.mp hp).1
    have hpt : (a :: t).Pairwise fun a b => firstIdx l a < firstIdx l b :=
      (List.pairwise_cons.mp hp).2
    by_cases hc : countOcc l k < countOcc l a
    · rw [if_pos hc] at hr
      obtain ⟨ih1, ih2, ih3, ih4, ih5⟩ := ih a hr hpt
      refine ⟨?_, ?_, ?_, ?_, ?_⟩
      · rcases ih1 with h | h
        · exact Or.inr (by rw [h]; exact List.mem_cons_self a t)
        · exact Or.inr (List.mem_cons_of_mem _ h)
      · exact le_of_lt (lt_of_lt_of_le hc ih2)
      · intro x hx
        rcases List.mem_cons.mp hx with h | h
        · rw [h]
          exact ih2
        · exact ih3 x h
      · intro _
        exact lt_of_lt_of_le hc ih2
      · intro x hx hcount
        rcases hx with hx | hx
        · subst hx
          exact absurd hcount (by omega)
        · rcases List.mem_cons.mp hx with h | h
          · exact ih5 x (Or.inl h) hcount
          · exact ih5 x (Or.inr h) hcount
    · rw [if_neg hc] at hr
      have hka : countOcc l a ≤ countOcc l k := le_of_not_lt hc
      have hpk : (k :: t).Pairwise fun a b => firstIdx l a < firstIdx l b := by
        rw [List.pairwise_cons]
        exact ⟨fun b hb => hpa b (List.mem_cons_of_mem _ hb),
          (List.pairwise_cons.mp hpt).2⟩
      obtain ⟨ih1, ih2, ih3, ih4, ih5⟩ := ih k hr hpk
      refine ⟨?_, ih2, ?_, ih4, ?_⟩
      · rcases ih1 with h | h
        · exact Or.inl h
        · exact Or.inr (List.mem_cons_of_mem _ h)
      · intro x hx
        rcases List.mem_cons.mp hx with h | h
        · rw [h]
          exact le_trans hka ih2
        · exact ih3 x h
      · intro x hx hcount
        rcases hx with hx | hx
        · exact ih5 x (Or.inl hx) hcount
        · rcases List.mem_cons.mp hx with h | h
          · subst h
            by_cases hrk : r = k
            · rw [hrk]
              exact Or.inr (hpa x (List.mem_cons_self x t))
            · have := ih4 hrk
              exact absurd hcount (by omega)
          · exact ih5 x (Or.inr h) hcount

/-- The dominant description is a most frequent element, with ties going to
the element whose first occurrence is earliest. -/
theorem dominantDescription_spec (l : List String) (hl : l ≠ []) :
    dominantDescription l ∈ l ∧
    (∀ x ∈ l, countOcc l x ≤ countOcc l (dominantDescription l)) ∧
    (∀ x ∈ l, countOcc l x = countOcc l (dominantDescription l) →
      firstIdx l (dominantDescription l) ≤ firstIdx l x) := by
  have hpd := dedupFirst_pairwise l
  cases hD : dedupFirst l with
  | nil => exact absurd hD (dedupFirst_ne_nil l hl)
  | cons k ks =>
    rw [hD] at hpd
    have hdom : dominantDescription l =
        ks.foldl (fun best x => if countOcc l best < countOcc l x then x else best) k := by
      unfold dominantDescription
      rw [hD]
    obtain ⟨h1, h2, h3, _, h5⟩ := argmax_fold l ks k (dominantDescription l) hdom hpd
    refine ⟨?_, ?_, ?_⟩
    · have : dominantDescription l ∈ dedupFirst l := by
        rw [hD]
        rcases h1 with h | h
        · rw [h]
          exact List.mem_cons_self k ks
        · exact List.mem_cons_of_mem _ h
      exact (mem_dedupFirst l _).mp this
    · intro x hx
      have hxD : x ∈ k :: ks := by
        rw [← hD]
        exact (mem_dedupFirst l x).mpr hx
      rcases List.mem_cons.mp hxD with h | h
      · rw [h]
        exact h2
      · exact h3 x h
    · intro x hx hcount
      have hxD : x ∈ k :: ks := by
        rw [← hD]
        exact (mem_dedupFirst l x).mpr hx
      rcases h5 x (List.mem_cons.mp hxD) hcount with h | h
      · rw [h]
      · exact le_of_lt h

/-- The hour classification of parse_weather_data, in interval form. -/
theorem periodOf_spec (h : Nat) :
    (periodOf h = Period.morning ↔ 6 ≤ h ∧ h < 12) ∧
    (periodOf h = Period.afternoon ↔ 12 ≤ h ∧ h < 18) ∧
    (periodOf h = Period.night ↔ ¬(6 ≤ h ∧ h < 12) ∧ ¬(12 ≤ h ∧ h < 18)) := by
  unfold periodOf
  split_ifs with h1 h2 <;> simp_all

/-! ### The claims -/

/-- C1: Cache validity boundary.  For a cache entry stored at time T with
validity period P, the cache-check path of fetch_weather at any time strictly
before T+P returns the cached series, leaving cache and log untouched (no
refetch); at or after T+P the lookup is a miss and the loop falls through to
a fresh network fetch, recorded on the log. -/
theorem cache_validity_boundary (P now T : Nat) (cache : Cache) (city : String)
    (data : RawSeries) (hc : dget cache city = some (data, T)) (hT : T ≤ now) :
    (now < T + P →
      validCached P now cache city = some data ∧
      ∀ env, fetch_weather env P now cache [city] =
        { forecasts := [(city, CityData.ok data)], cache := cache, log := [] }) ∧
    (T + P ≤ now →
      validCached P now cache city = none ∧
      ∀ env, (fetch_weather env P now cache [city]).log = [city]) := by
  constructor
  · intro hlt
    have hv : validCached P now cache city = some data := by
      simp only [validCached, hc]
      rw [if_pos (show now - T < P by omega)]
    refine ⟨hv, fun env => ?_⟩
    show fetchCity env P now ⟨[], cache, []⟩ city = _
    rw [fetchCity_hit env P now ⟨[], cache, []⟩ city data hv]
    rfl
  · intro hge
    have hv : validCached P now cache city = none := by
      simp only [validCached, hc]
      rw [if_neg (show ¬(now - T < P) by omega)]
    refine ⟨hv, fun env => ?_⟩
    show (fetchCity env P now ⟨[], cache, []⟩ city).log = [city]
    rw [fetchCity_miss_log env P now ⟨[], cache, []⟩ city hv]
    rfl

/-- Witness for C1 at P = 3600, store time 100: a lookup at 3699 hits, a
lookup at 3700 misses and consults the network. -/
theorem cache_validity_boundary_witness :
    (dget demoCache "Paris" = some (demoSeries, 100) ∧ 100 ≤ 3699 ∧ 3699 < 100 + 3600
      ∧ 100 + 3600 ≤ 3700) ∧
    validCached 3600 3699 demoCache "Paris" = some demoSeries ∧
    fetch_weather demoEnv 3600 3699 demoCache ["Paris"] =
      { forecasts := [("Paris", CityData.ok demoSeries)], cache := demoCache, log := [] } ∧
    validCached 3600 3700 demoCache "Paris" = none ∧
    (fetch_weather demoEnv 3600 3700 demoCache ["Paris"]).log = ["Paris"] := by
  have h1 := cache_validity_boundary 3600 3699 100 demoCache "Paris" demoSeries
    (by decide) (by omega)
  have h2 := cache_validity_boundary 3600 3700 100 demoCache "Paris" demoSeries
    (by decide) (by omega)
  obtain ⟨hv1, hf1⟩ := h1.1 (by omega)
  obtain ⟨hv2, hf2⟩ := h2.2 (by omega)
  exact ⟨⟨by decide, by omega, by omega, by omega⟩, hv1, hf1 demoEnv, hv2, hf2 demoEnv⟩

/-- C2: Idempotent accumulation.  Running get_weather_forecasts a second
time on the same city list performs zero fetches (empty log), returns the
same accumulated forecast dict, and leaves the state unchanged, regardless
of the network, clock, or cache expiry in between. -/
theorem idempotent_accumulation (env1 env2 : String → FetchOutcome)
    (P1 P2 now1 now2 : Nat) (today1 today2 : Int) (s : ServiceState)
    (cities : List String) :
    (get_weather_forecasts env2 P2 now2 today2
        (get_weather_forecasts env1 P1 now1 today1 s cities).state cities).log = [] ∧
    (get_weather_forecasts env2 P2 now2 today2
        (get_weather_forecasts env1 P1 now1 today1 s cities).state cities).output =
      (get_weather_forecasts env1 P1 now1 today1 s cities).output ∧
    (get_weather_forecasts env2 P2 now2 today2
        (get_weather_forecasts env1 P1 now1 today1 s cities).state cities).state =
      (get_weather_forecasts env1 P1 now1 today1 s cities).state := by
  have hall : ∀ c ∈ cities,
      c ∈ (get_weather_forecasts env1 P1 now1 today1 s cities).state.locations :=
    fun c hc => gwf_locations_mem env1 P1 now1 today1 s cities c (Or.inl hc)
  rw [gwf_all_known env2 P2 now2 today2 _ cities hall]
  exact ⟨rfl, (gwf_output_eq env1 P1 now1 today1 s cities).symm, rfl⟩

/-- C3: Per-city failure isolation.  Every requested city gets an entry in
the result dict; with no duplicate city in the batch, each city's entry is
exactly the outcome of processing it alone against the initial cache, so no
other city's failure affects it; on a cache miss, an unresolvable city gets
the error marker and a successfully fetched city its raw series. -/
theorem per_city_failure_isolation (env : String → FetchOutcome) (P now : Nat)
    (cache : Cache) (cities : List String) :
    (∀ city ∈ cities, dget (fetch_weather env P now cache cities).forecasts city ≠ none) ∧
    (cities.Nodup → ∀ city ∈ cities,
      dget (fetch_weather env P now cache cities).forecasts city =
        some (singleOutcome env P now cache city)) ∧
    (∀ city, validCached P now cache city = none → env city = .unresolved →
      singleOutcome env P now cache city = .errMsg invalidCityMsg) ∧
    (∀ city data, validCached P now cache city = none → env city = .success data →
      singleOutcome env P now cache city = .ok data) := by
  refine ⟨?_, ?_, ?_, ?_⟩
  · intro city hc
    exact foldl_fetch_forecasts_mem env P now cities ⟨[], cache, []⟩ city hc
  · intro hnd city hc
    exact foldl_fetch_isolation env P now cache cities ⟨[], cache, []⟩ city hnd hc rfl
  · intro city hv he
    unfold singleOutcome
    rw [hv, he]
  · intro city data hv he
    unfold singleOutcome
    rw [hv, he]

/-- Witness for C3: in the batch [Nowhereville, Paris] with an empty cache,
Nowhereville (unresolvable) gets the error marker and Paris gets its series. -/
theorem per_city_failure_isolation_witness :
    (["Nowhereville", "Paris"] : List String).Nodup ∧
    dget (fetch_weather demoEnv 3600 0 [] ["Nowhereville", "Paris"]).forecasts
      "Nowhereville" = some (CityData.errMsg invalidCityMsg) ∧
    dget (fetch_weather demoEnv 3600 0 [] ["Nowhereville", "Paris"]).forecasts
      "Paris" = some (CityData.ok demoSeries) := by
  obtain ⟨h1, h2, h3, h4⟩ := per_city_failure_isolation demoEnv 3600 0 [] ["Nowhereville", "Paris"]
  have hnd : (["Nowhereville", "Paris"] : List String).Nodup := by decide
  refine ⟨hnd, ?_, ?_⟩
  · rw [h2 hnd "Nowhereville" (by decide)]
    exact congrArg some (h3 "Nowhereville" rfl (by decide))
  · rw [h2 hnd "Paris" (by decide)]
    exact congrArg some (h4 "Paris" demoSeries rfl (by decide))

/-- C4: Precipitation time-of-day bucketing.  For every payload and date,
each per-period rain/snow total is the sum of the 3-hour accumulations of
exactly the samples of that date whose hour falls in that period, where the
periods are morning [6,12), afternoon [12,18) and night everything else
(both [0,6) and [18,24)). -/
theorem precipitation_bucketing (data : RawSeries) (date : Int) (b : DayBucket)
    (h : dget (parse_weather_data data) date = some b) :
    b.rain_morning = (((data.list.filter fun s => decide (s.date = date)).filter
        fun s => decide (periodOf s.hour = Period.morning)).map fun s => s.rain3h.getD 0).sum ∧
    b.rain_afternoon = (((data.list.filter fun s => decide (s.date = date)).filter
        fun s => decide (periodOf s.hour = Period.afternoon)).map fun s => s.rain3h.getD 0).sum ∧
    b.rain_night = (((data.list.filter fun s => decide (s.date = date)).filter
        fun s => decide (periodOf s.hour = Period.night)).map fun s => s.rain3h.getD 0).sum ∧
    b.snow_morning = (((data.list.filter fun s => decide (s.date = date)).filter
        fun s => decide (periodOf s.hour = Period.morning)).map fun s => s.snow3h.getD 0).sum ∧
    b.snow_afternoon = (((data.list.filter fun s => decide (s.date = date)).filter
        fun s => decide (periodOf s.hour = Period.afternoon)).map fun s => s.snow3h.getD 0).sum ∧
    b.snow_night = (((data.list.filter fun s => decide (s.date = date)).filter
        fun s => decide (periodOf s.hour = Period.night)).map fun s => s.snow3h.getD 0).sum ∧
    (∀ hr : Nat, (periodOf hr = Period.morning ↔ 6 ≤ hr ∧ hr < 12) ∧
      (periodOf hr = Period.afternoon ↔ 12 ≤ hr ∧ hr < 18) ∧
      (periodOf hr = Period.night ↔ ¬(6 ≤ hr ∧ hr < 12) ∧ ¬(12 ≤ hr ∧ hr < 18))) := by
  have hb := parse_bucket_eq data date b h
  refine ⟨?_, ?_, ?_, ?_, ?_, ?_, periodOf_spec⟩
  · rw [hb, foldl_updBucket_rain_morning]
    simp [emptyBucket]
  · rw [hb, foldl_updBucket_rain_afternoon]
    simp [emptyBucket]
  · rw [hb, foldl_updBucket_rain_night]
    simp [emptyBucket]
  · rw [hb, foldl_updBucket_snow_morning]
    simp [emptyBucket]
  · rw [hb, foldl_updBucket_snow_afternoon]
    simp [emptyBucket]
  · rw [hb, foldl_updBucket_snow_night]
    simp [emptyBucket]

/-- Witness for C4 on demoSeries (hour 7 rain 2, hour 20 rain 3): the
parsed bucket exists and its morning rain total is the filtered sum. -/
theorem precipitation_bucketing_witness :
    dget (parse_weather_data demoSeries) 0 = some demoBucket ∧
    demoBucket.rain_morning = (((demoSeries.list.filter fun s => decide (s.date = 0)).filter
        fun s => decide (periodOf s.hour = Period.morning)).map fun s => s.rain3h.getD 0).sum ∧
    demoBucket.rain_night = (((demoSeries.list.filter fun s => decide (s.date = 0)).filter
        fun s => decide (periodOf s.hour = Period.night)).map fun s => s.rain3h.getD 0).sum ∧
    demoBucket.rain_afternoon = (((demoSeries.list.filter fun s => decide (s.date = 0)).filter
        fun s => decide (periodOf s.hour = Period.afternoon)).map fun s => s.rain3h.getD 0).sum := by
  have hsome : dget (parse_weather_data demoSeries) 0 = some demoBucket :=
    (Option.some_get (by decide)).symm
  obtain ⟨h1, h2, h3, _⟩ := precipitation_bucketing demoSeries 0 demoBucket hsome
  exact ⟨hsome, h1, h3, h2⟩

/-- C5: Precipitation-probability split and averaging.  Each sample's
probability (scaled by 100) is routed by the day/night indicator flag into
the day or night series of its date, in payload order; the summary reports
the arithmetic mean of each series independently, and 0 for an empty
series. -/
theorem pop_split_and_average (data : RawSeries) (date : Int) (b : DayBucket)
    (h : dget (parse_weather_data data) date = some b) (today : Int) :
    b.pop_day = ((data.list.filter fun s => decide (s.date = date)).filter
        fun s => s.pod_day).map (fun s => s.pop * 100) ∧
    b.pop_night = ((data.list.filter fun s => decide (s.date = date)).filter
        fun s => !s.pod_day).map (fun s => s.pop * 100) ∧
    (summarizeBucket today date b).popDayAvg =
      (if b.pop_day = [] then 0 else b.pop_day.sum / b.pop_day.length) ∧
    (summarizeBucket today date b).popNightAvg =
      (if b.pop_night = [] then 0 else b.pop_night.sum / b.pop_night.length) := by
  have hb := parse_bucket_eq data date b h
  refine ⟨?_, ?_, rfl, rfl⟩
  · rw [hb, foldl_updBucket_pop_day]
    simp [emptyBucket]
  · rw [hb, foldl_updBucket_pop_night]
    simp [emptyBucket]

/-- Witness for C5 on demoSeries (a day sample and a night sample): the
parsed bucket exists, both routed series match, and the empty-series case
of the average is 0. -/
theorem pop_split_and_average_witness :
    dget (parse_weather_data demoSeries) 0 = some demoBucket ∧
    demoBucket.pop_day = ((demoSeries.list.filter fun s => decide (s.date = 0)).filter
        fun s => s.pod_day).map (fun s => s.pop * 100) ∧
    demoBucket.pop_night = ((demoSeries.list.filter fun s => decide (s.date = 0)).filter
        fun s => !s.pod_day).map (fun s => s.pop * 100) ∧
    (summarizeBucket 0 0 emptyBucket).popDayAvg = 0 := by
  have hsome : dget (parse_weather_data demoSeries) 0 = some demoBucket :=
    (Option.some_get (by decide)).symm
  obtain ⟨h1, h2, _, _⟩ := pop_split_and_average demoSeries 0 demoBucket hsome 0
  exact ⟨hsome, h1, h2, rfl⟩

/-- C6: Relative-date labeling.  The summary's relative label is a function
of forecast date minus the current process-local date: 0 gives today, 1
tomorrow, 2 in two days, 3 in three days, and everything else the empty
string. -/
theorem relative_date_labeling (today date : Int) (b : DayBucket) :
    (summarizeBucket today date b).relativeDate = relativeLabel (date - today) ∧
    relativeLabel 0 = "today" ∧ relativeLabel 1 = "tomorrow" ∧
    relativeLabel 2 = "in two days" ∧ relativeLabel 3 = "in three days" ∧
    (∀ d : Int, d ≠ 0 → d ≠ 1 → d ≠ 2 → d ≠ 3 → relativeLabel d = "") := by
  refine ⟨rfl, rfl, rfl, rfl, rfl, ?_⟩
  intro d h0 h1 h2 h3
  unfold relativeLabel
  rw [if_neg h0, if_neg h1, if_neg h2, if_neg h3]

/-- Witness for C6 with today = 2024-06-10 as epoch day 19884: the summary
for 2024-06-12 (19886) is labeled in two days, and for 2024-06-15 (19889,
five days out) the label is empty. -/
theorem relative_date_labeling_witness :
    (summarizeBucket 19884 19886 emptyBucket).relativeDate = "in two days" ∧
    (summarizeBucket 19884 19889 emptyBucket).relativeDate = "" := by
  obtain ⟨ha, _, _, _, _, _⟩ := relative_date_labeling 19884 19886 emptyBucket
  obtain ⟨hb, _, _, _, _, h5⟩ := relative_date_labeling 19884 19889 emptyBucket
  constructor
  · rw [ha]
    rfl
  · rw [hb]
    exact h5 (19889 - 19884) (by decide) (by decide) (by decide) (by decide)

/-- C7: Dominant-description selection.  For a date with at least one
sample, the summary's weather description is the most frequent description
string, and on a tie in counts the string whose first occurrence comes
earliest in sample order wins. -/
theorem dominant_description (today date : Int) (b : DayBucket)
    (h : b.weather_descriptions ≠ []) :
    (summarizeBucket today date b).description =
      dominantDescription b.weather_descriptions ∧
    dominantDescription b.weather_descriptions ∈ b.weather_descriptions ∧
    (∀ x ∈ b.weather_descriptions,
      countOcc b.weather_descriptions x ≤
        countOcc b.weather_descriptions (dominantDescription b.weather_descriptions)) ∧
    (∀ x ∈ b.weather_descriptions,
      countOcc b.weather_descriptions x =
          countOcc b.weather_descriptions (dominantDescription b.weather_descriptions) →
      firstIdx b.weather_descriptions (dominantDescription b.weather_descriptions) ≤
        firstIdx b.weather_descriptions x) := by
  obtain ⟨h1, h2, h3⟩ := dominantDescription_spec b.weather_descriptions h
  exact ⟨rfl, h1, h2, h3⟩

/-- Witness for C7 on the sequence [cloudy, sunny, cloudy]: the summary
reports the dominant description, which is cloudy. -/
theorem dominant_description_witness :
    demoDescBucket.weather_descriptions ≠ [] ∧
    (summarizeBucket 0 0 demoDescBucket).description =
      dominantDescription demoDescBucket.weather_descriptions ∧
    dominantDescription demoDescBucket.weather_descriptions = "cloudy" :=
  ⟨by decide, (dominant_description 0 0 demoDescBucket (by decide)).1, by decide⟩

/-- C8: Reset postcondition.  clear_data (the operation the reset path of
the chat interface invokes on the service) empties the cache, the location
set and the accumulated forecasts in one step, so every subsequent cache
lookup misses and every accumulated entry is gone. -/
theorem reset_postcondition (s : ServiceState) (P now : Nat) (city : String) :
    clear_data s = emptyState ∧
    validCached P now (clear_data s).weather_cache city = none ∧
    dget (clear_data s).weather_forecasts city = none ∧
    (clear_data s).locations = [] :=
  ⟨rfl, rfl, rfl, rfl⟩

/-- C9: Lookup does not mutate the cache.  A valid cache hit returns the
cached series with the cache structurally unchanged (same entry, same
timestamp, every other city untouched) and nothing fetched; and across any
batch, a cache entry changes only when a store follows a successful fetch,
writing the fetched payload stamped with the current time. -/
theorem lookup_no_mutation (env : String → FetchOutcome) (P now : Nat)
    (cache : Cache) (city : String) (data : RawSeries)
    (h : validCached P now cache city = some data) :
    fetch_weather env P now cache [city] =
      { forecasts := [(city, CityData.ok data)], cache := cache, log := [] } ∧
    (∀ cities c, dget (fetch_weather env P now cache cities).cache c = dget cache c ∨
      ∃ d2, env c = .success d2 ∧
        dget (fetch_weather env P now cache cities).cache c = some (d2, now) ∧
        c ∈ (fetch_weather env P now cache cities).log) := by
  constructor
  · show fetchCity env P now ⟨[], cache, []⟩ city = _
    rw [fetchCity_hit env P now ⟨[], cache, []⟩ city data h]
    rfl
  · intro cities c
    exact foldl_fetch_cache_spec env P now cities ⟨[], cache, []⟩ c

/-- Witness for C9: the valid Paris entry at time 3699 is served from cache
and the whole cache survives unchanged. -/
theorem lookup_no_mutation_witness :
    validCached 3600 3699 demoCache "Paris" = some demoSeries ∧
    fetch_weather demoEnv 3600 3699 demoCache ["Paris"] =
      { forecasts := [("Paris", CityData.ok demoSeries)], cache := demoCache, log := [] } := by
  have hv : validCached 3600 3699 demoCache "Paris" = some demoSeries := by decide
  exact ⟨hv, (lookup_no_mutation demoEnv 3600 3699 demoCache "Paris" demoSeries hv).1⟩

/-- C10: Failed cities are sticky.  A new, uncached city whose resolution
or fetch fails in any mode (unresolvable, non-200 status, or unparsable
payload, i.e. every outcome with an error value) is added to the location
set anyway, its error marker is stored in the accumulated dict and
returned, and every later call in the session fetches nothing for it and
still shows the same error entry. -/
theorem failed_city_sticky (env : String → FetchOutcome) (P now : Nat) (today : Int)
    (s : ServiceState) (cities : List String) (city : String)
    (hmem : city ∈ cities) (hloc : city ∉ s.locations)
    (hcache : dget s.weather_cache city = none)
    (e : String ⊕ Nat) (henv : errOf (env city) = some e) :
    city ∈ (get_weather_forecasts env P now today s cities).state.locations ∧
    dget (get_weather_forecasts env P now today s cities).state.weather_forecasts city =
      some (CityForecast.err e) ∧
    dget (get_weather_forecasts env P now today s cities).output city =
      some (CityForecast.err e) ∧
    (∀ env2 P2 now2 today2 cities2,
      city ∉ (get_weather_forecasts env2 P2 now2 today2
        (get_weather_forecasts env P now today s cities).state cities2).log ∧
      dget (get_weather_forecasts env2 P2 now2 today2
          (get_weather_forecasts env P now today s cities).state cities2).state.weather_forecasts
        city = some (CityForecast.err e)) := by
  have hnc : city ∈ newCities s cities := (mem_newCities s cities city).mpr ⟨hmem, hloc⟩
  have h1 : city ∈ (get_weather_forecasts env P now today s cities).state.locations :=
    gwf_locations_mem env P now today s cities city (Or.inl hmem)
  obtain ⟨d, hd, hconv⟩ := failData_errOf (env city) e henv
  have h2 := gwf_wf_failure env P now today s cities city d hnc hd hcache
  rw [hconv today] at h2
  have h3 : dget (get_weather_forecasts env P now today s cities).output city =
      some (CityForecast.err e) := by
    rw [gwf_output_eq]
    exact h2
  refine ⟨h1, h2, h3, ?_⟩
  intro env2 P2 now2 today2 cities2
  have hnot_new : city ∉
      newCities (get_weather_forecasts env P now today s cities).state cities2 := by
    intro hh
    exact ((mem_newCities _ cities2 city).mp hh).2 h1
  constructor
  · intro hlog
    exact hnot_new (gwf_log_sub env2 P2 now2 today2 _ cities2 city hlog)
  · rw [gwf_wf_preserve env2 P2 now2 today2 _ cities2 city hnot_new]
    exact h2

/-- Witness for C10 in two failure modes: from a fresh state, asking for
Nowhereville (unresolvable) stores and returns its message error entry and
a second call for it fetches nothing; asking for Berlin against a network
answering 500 stores the status-code error entry, which survives a second
call unchanged. -/
theorem failed_city_sticky_witness :
    ("Nowhereville" ∈ ["Nowhereville"] ∧ "Nowhereville" ∉ emptyState.locations ∧
      errOf (demoEnv "Nowhereville") = some (Sum.inl invalidCityMsg) ∧
      errOf (demoEnvDown "Berlin") = some (Sum.inr 500)) ∧
    dget (get_weather_forecasts demoEnv 3600 0 0 emptyState
        ["Nowhereville"]).state.weather_forecasts "Nowhereville" =
      some (CityForecast.err (Sum.inl invalidCityMsg)) ∧
    "Nowhereville" ∉ (get_weather_forecasts demoEnv 3600 5000 0
      (get_weather_forecasts demoEnv 3600 0 0 emptyState ["Nowhereville"]).state
      ["Nowhereville"]).log ∧
    dget (get_weather_forecasts demoEnvDown 3600 0 0 emptyState
        ["Berlin"]).state.weather_forecasts "Berlin" =
      some (CityForecast.err (Sum.inr 500)) ∧
    dget (get_weather_forecasts demoEnvDown 3600 5000 0
        (get_weather_forecasts demoEnvDown 3600 0 0 emptyState ["Berlin"]).state
        ["Berlin"]).state.weather_forecasts "Berlin" =
      some (CityForecast.err (Sum.inr 500)) := by
  have h1 := failed_city_sticky demoEnv 3600 0 0 emptyState ["Nowhereville"] "Nowhereville"
    (by decide) (by decide) rfl (Sum.inl invalidCityMsg) (by decide)
  have h2 := failed_city_sticky demoEnvDown 3600 0 0 emptyState ["Berlin"] "Berlin"
    (by decide) (by decide) rfl (Sum.inr 500) (by decide)
  exact ⟨⟨by decide, by decide, by decide, by decide⟩, h1.2.1,
    (h1.2.2.2 demoEnv 3600 5000 0 ["Nowhereville"]).1, h2.2.1,
    (h2.2.2.2 demoEnvDown 3600 5000 0 ["Berlin"]).2⟩
